import Mathlib

/-!
Formal model of the download-and-retry controller in
`src/ingestion/web_scraper.py` (class `ONSExcelDownloader`), together with
proofs of the specified properties.

Modelling conventions:
* Python strings are Lean `String`s; case folding (`str.lower`) is modelled
  by mapping `Char.toLower` over the character data, and membership /
  `startswith` / `endswith` tests by list prefix / suffix / infix relations
  on the character data.
* HTTP responses are abstracted to the header fields the scraper reads
  (status code, Content-Type, Content-Length, Content-Disposition) plus the
  actual body size in bytes; response bodies beyond their size are not
  modelled.
* The network is modelled as a transport function from the attempt number
  to an outcome (a response, or a network-level error such as a timeout).
  `requests` raises `HTTPError` (a subclass of `RequestException`) from
  `raise_for_status()` for statuses in [400, 600); both network errors and
  such raised `HTTPError`s are caught by the scraper's
  `except requests.exceptions.RequestException` clause.
* The download directory is modelled as an association list from filename
  to byte size (`FS`); `open`/`write` creates or truncates the file,
  `Path.unlink` removes it, `Path.exists`/`stat` look it up.
* Each unbounded Python `while True` loop is rendered with explicit fuel;
  the theorems show the fuel chosen always suffices.
-/

namespace WebScraper

/-- Case folding of a Python string, as in `str.lower()` (ASCII-faithful). -/
def lowerStr (s : String) : String := ⟨s.data.map Char.toLower⟩

/-- Python `needle in hay` substring test, as a relation on character data. -/
def strContains (hay needle : String) : Prop := needle.data <:+: hay.data

/-- Python `s.startswith(pre)`. -/
def strStarts (s pre : String) : Prop := pre.data <+: s.data

/-- Python `s.endswith(suf)`. -/
def strEnds (s suf : String) : Prop := suf.data <:+ s.data

instance (hay needle : String) : Decidable (strContains hay needle) :=
  List.decidableInfix _ _

instance (s pre : String) : Decidable (strStarts s pre) :=
  inferInstanceAs (Decidable (_ <+: _))

instance (s suf : String) : Decidable (strEnds s suf) :=
  inferInstanceAs (Decidable (_ <:+ _))

/-- An HTTP response, abstracted to the fields the scraper inspects.
`bodySize` is the number of bytes actually delivered by the body stream
(which a lying or truncating server need not match with `contentLength`). -/
structure Response where
  status : Nat
  contentType : Option String
  contentLength : Option Nat
  contentDisposition : Option String
  bodySize : Nat
deriving DecidableEq

/-- Outcome of one wire-level attempt: a response, or a network error
(connection error / timeout), which `requests` raises as a
`RequestException`. -/
inductive AttemptOutcome where
  | resp (r : Response)
  | netError (msg : String)
deriving DecidableEq

/-- Statuses for which `response.raise_for_status()` raises `HTTPError`:
client errors (4xx) and server errors (5xx). -/
def raisesForStatus (s : Nat) : Prop := 400 ≤ s ∧ s < 600

instance (s : Nat) : Decidable (raisesForStatus s) :=
  inferInstanceAs (Decidable (_ ∧ _))

/-- The body of the `for attempt in range(self.max_retries + 1)` loop of
`make_request_with_retry` (web_scraper.py lines 115-148).  `fuel` counts the
remaining loop iterations; the loop runs with `fuel = max_retries + 1`.
On a 429 response, and on a caught `RequestException` (network error, or the
`HTTPError` raised by `raise_for_status` on a 4xx/5xx status), the code
retries while `attempt < max_retries` and otherwise returns `None`; on any
other status the response is returned. -/
def requestGo (t : Nat → AttemptOutcome) (max_retries : Nat) :
    Nat → Nat → Option Response
  | _, 0 => none
  | attempt, fuel + 1 =>
    match t attempt with
    | .netError _ =>
      if attempt < max_retries then requestGo t max_retries (attempt + 1) fuel
      else none
    | .resp response =>
      if response.status = 429 then
        if attempt < max_retries then requestGo t max_retries (attempt + 1) fuel
        else none
      else if raisesForStatus response.status then
        if attempt < max_retries then requestGo t max_retries (attempt + 1) fuel
        else none
      else some response

/-- Model of `make_request_with_retry` (web_scraper.py lines 103-148): run the
attempt loop from attempt 0 with `max_retries + 1` iterations available. -/
def make_request_with_retry (t : Nat → AttemptOutcome) (max_retries : Nat) :
    Option Response :=
  requestGo t max_retries 0 (max_retries + 1)

/-- Model of `validate_excel_file` (web_scraper.py lines 166-184): returns
`(is_valid, error_message)`.  Rejects when the lower-cased Content-Type
contains `html` or `text`; otherwise rejects when the declared
Content-Length (`0` when the header is absent) is positive and below 1000. -/
def validate_excel_file (response : Response) : Bool × String :=
  let content_type := lowerStr (response.contentType.getD "")
  if strContains content_type "html" ∨ strContains content_type "text" then
    (false, "Response is HTML/text instead of Excel file (Content-Type: "
      ++ content_type ++ ")")
  else
    let content_length := response.contentLength.getD 0
    if 0 < content_length ∧ content_length < 1000 then
      (false, "File too small (" ++ Nat.repr content_length
        ++ " bytes) - likely an error page")
    else
      (true, "")

/-- The site base URL `self.base_url` set in `__init__`. -/
def base_url : String := "https://www.ons.gov.uk"

/-- Python `href.lstrip('/')`: drop leading slashes. -/
def lstripSlash (s : String) : String := ⟨s.data.dropWhile (· = '/')⟩

/-- Relative-to-absolute URL resolution shared by all link-collection sites
in web_scraper.py (lines 302-308, 319-324, 337-342, 454-461): a leading `/`
is resolved against the base URL, an href not starting with `http` is joined
to the base URL with a slash, and anything else passes through unchanged. -/
def resolve_link (base href : String) : String :=
  if strStarts href "/" then base ++ href
  else if ¬ strStarts href "http" then base ++ "/" ++ lstripSlash href
  else href

/-- The filter used by `extract_excel_links`:
`any(ext.lower() in href.lower() for ext in ['.xlsx', '.xls'])` — a
case-insensitive substring test, not a suffix test. -/
def isExcelHref (href : String) : Prop :=
  strContains (lowerStr href) ".xlsx" ∨ strContains (lowerStr href) ".xls"

instance (href : String) : Decidable (isExcelHref href) :=
  inferInstanceAs (Decidable (_ ∨ _))

/-- Model of `extract_excel_links` (web_scraper.py lines 278-345), over the
list of all anchor hrefs found in the HTML (`soup.find_all('a', href=True)`).
The code accumulates into one Python set from three strategies: all anchors,
anchors inside tables, and anchors inside download-labelled elements; the
latter two only re-add anchors already contributed by the first strategy,
so over the list of all anchors the result is the set of resolved hrefs
passing the extension-substring filter. -/
def extract_excel_links (hrefs : List String) (base : String) : Finset String :=
  ((hrefs.filter (fun h => decide (isExcelHref h))).map (resolve_link base)).toFinset

/-- The stricter filter used inline by `process_url` (line 453):
`any(href.lower().endswith(ext) for ext in ('.xlsx', '.xls'))`. -/
def isExcelHrefSuffix (href : String) : Prop :=
  strEnds (lowerStr href) ".xlsx" ∨ strEnds (lowerStr href) ".xls"

instance (href : String) : Decidable (isExcelHrefSuffix href) :=
  inferInstanceAs (Decidable (_ ∨ _))

/-- Property used by the spec's Link Discovery contract: the URL ends in a
spreadsheet extension (case-insensitively). -/
def endsWithExcelExt (s : String) : Prop :=
  strEnds (lowerStr s) ".xlsx" ∨ strEnds (lowerStr s) ".xls"

instance (s : String) : Decidable (endsWithExcelExt s) :=
  inferInstanceAs (Decidable (_ ∨ _))

/-- Characters stripped by Python `strip('"\x27')` around a
Content-Disposition filename (double or single quote). -/
def isQuoteChar (c : Char) : Bool := c = '"' ∨ c = Char.ofNat 39

/-- Suffix of `l` after the first occurrence of `pat`, if any
(Python `s.split(pat)[1:]` viewpoint). -/
def afterFirst : List Char → List Char → Option (List Char)
  | [], pat => if pat <+: ([] : List Char) then some [] else none
  | l@(_ :: t), pat =>
    if pat <+: l then some (l.drop pat.length) else afterFirst t pat

/-- Prefix of `l` before the first occurrence of `pat` (all of `l` when
`pat` does not occur); used to model `s.split(pat)[k]` segments. -/
def beforeFirst : List Char → List Char → List Char
  | [], _ => []
  | l@(c :: t), pat => if pat <+: l then [] else c :: beforeFirst t pat

/-- The path component of a URL, as computed by
`urllib.parse.urlparse(url).path`: the fragment (after `#`) and query
(after `?`) are removed, and for a URL with a netloc (after `://`) the path
starts at the first slash past the host. -/
def urlPath (url : String) : String :=
  let noFrag := url.data.takeWhile (· ≠ '#')
  let noQuery := noFrag.takeWhile (· ≠ '?')
  match afterFirst noQuery "://".data with
  | some hostAndPath => ⟨hostAndPath.dropWhile (· ≠ '/')⟩
  | none => ⟨noQuery⟩

/-- Python `os.path.basename`: the part after the last slash. -/
def pathBasename (p : String) : String :=
  ⟨(p.data.reverse.takeWhile (· ≠ '/')).reverse⟩

/-- Scan for the regex `/datasets/([^/]+)` used by `extract_dataset_name`:
the first position where `/datasets/` is followed by at least one
non-slash character yields that maximal non-slash run. -/
def datasetPartSearch : List Char → Option (List Char)
  | [] => none
  | l@(_ :: t) =>
    if "/datasets/".data <+: l then
      let part := (l.drop 10).takeWhile (· ≠ '/')
      if part.isEmpty then datasetPartSearch t else some part
    else datasetPartSearch t

/-- Model of `extract_dataset_name` (web_scraper.py lines 150-164).  After locating
the `/datasets/<part>` segment, the regex `^([a-zA-Z]+\d+)` takes the
maximal leading alphabetic run followed by a maximal digit run (upper-cased)
when both are non-empty; otherwise the code falls back to
`dataset_part.split('_')[0].split('-')[0].upper()[:20]`. -/
def extract_dataset_name (url : String) : String :=
  match datasetPartSearch url.data with
  | none => "ons_dataset"
  | some dataset_part =>
    let alphas := dataset_part.takeWhile Char.isAlpha
    let digitsRun := (dataset_part.drop alphas.length).takeWhile Char.isDigit
    if ¬ alphas.isEmpty ∧ ¬ digitsRun.isEmpty then
      ⟨(alphas ++ digitsRun).map Char.toUpper⟩
    else
      ⟨((((dataset_part.takeWhile (· ≠ '_')).takeWhile (· ≠ '-')).map
        Char.toUpper).take 20)⟩

/-- Model of `get_filename_from_url` (web_scraper.py lines 347-380).  `nameHead` is
the outcome of the `make_request_with_retry(url, 'HEAD', ...)` call made to
read a Content-Disposition filename (`none` when that call returns `None`);
it is only consulted when the URL basename lacks a spreadsheet extension. -/
def get_filename_from_url (nameHead : Option Response) (url dataset_name : String)
    (index : Nat) : String :=
  let filename := pathBasename (urlPath url)
  if filename ≠ "" ∧ endsWithExcelExt filename then filename
  else
    let fromHeader : Option String :=
      match nameHead with
      | none => none
      | some head_response =>
        let content_disposition := head_response.contentDisposition.getD ""
        if strContains content_disposition "filename=" then
          let segment :=
            beforeFirst ((afterFirst content_disposition.data "filename=".data).getD [])
              "filename=".data
          let fn : String :=
            ⟨((segment.dropWhile isQuoteChar).reverse.dropWhile isQuoteChar).reverse⟩
          if fn ≠ "" ∧ endsWithExcelExt fn then some fn else none
        else none
    match fromHeader with
    | some f => f
    | none => lowerStr dataset_name ++ "_file_" ++ Nat.repr index ++ ".xlsx"

/-- The download directory contents: an association list from filename to
byte size.  The scraper only ever consults existence and `stat().st_size`. -/
abbrev FS : Type := List (String × Nat)

/-- Python `Path.stat().st_size` for a file in the download directory
(`none` when the file does not exist). -/
def FS.stat (fs : FS) (name : String) : Option Nat :=
  (fs.find? (fun p => p.1 == name)).map (·.2)

/-- Python `Path.exists()`. -/
def FS.fileExists (fs : FS) (name : String) : Bool :=
  (FS.stat fs name).isSome

/-- Creating/truncating a file and writing `size` bytes to it. -/
def FS.write (fs : FS) (name : String) (size : Nat) : FS :=
  (name, size) :: fs.filter (fun p => !(p.1 == name))

/-- Python `Path.unlink()`. -/
def FS.unlink (fs : FS) (name : String) : FS :=
  fs.filter (fun p => !(p.1 == name))

/-- Number of directory entries (used to size the fuel of the
`ensure_unique_filename` loop). -/
def FS.size (fs : FS) : Nat := fs.length

/-- Python `os.path.splitext` for a bare filename (no directory
separators): split at the last dot, except that a basename consisting
entirely of dots up to that position has no extension. -/
def splitext (p : String) : String × String :=
  let l := p.data
  match ((List.range l.length).filter (fun i => l.getD i ' ' = '.')).getLast? with
  | none => (p, "")
  | some i =>
    if (List.range i).all (fun j => l.getD j ' ' = '.') then (p, "")
    else (⟨l.take i⟩, ⟨l.drop i⟩)

/-- The candidate filename `f"{base_name}_{counter}{ext}"` tried by the
`ensure_unique_filename` loop (an f-string renders a `Nat` counter as its
decimal digits, i.e. `Nat.repr`). -/
def uniqueCandidate (base_name ext : String) (counter : Nat) : String :=
  base_name ++ "_" ++ Nat.repr counter ++ ext

/-- The `while True` loop of `ensure_unique_filename` (web_scraper.py lines
399-404), with explicit fuel: try `base_name_counter ext`, incrementing the
counter while the candidate exists.  `none` means the fuel ran out, which
the termination theorem shows never happens for the fuel used below. -/
def findUnique (fs : FS) (base_name ext : String) : Nat → Nat → Option String
  | _, 0 => none
  | counter, fuel + 1 =>
    let new_filename := uniqueCandidate base_name ext counter
    if FS.fileExists fs new_filename then
      findUnique fs base_name ext (counter + 1) fuel
    else some new_filename

/-- Model of `ensure_unique_filename` (web_scraper.py lines 382-404): return the
filename unchanged when it does not exist in the download directory,
otherwise run the numeric-suffix loop starting from counter 1. -/
def ensure_unique_filename (fs : FS) (filename : String) : Option String :=
  if FS.fileExists fs filename then
    let be := splitext filename
    findUnique fs be.1 be.2 1 (FS.size fs + 1)
  else some filename

/-- The `DownloadResult` dataclass (web_scraper.py lines 12-19). -/
structure DownloadResult where
  success : Bool
  filename : String
  file_size : Nat := 0
  error_message : String := ""
  url : String := ""
deriving DecidableEq

/-- The environment one `download_file` call runs against: the outcome of
the HEAD request (after retries), the outcome of the streamed GET request
(after retries), and an optional exception raised during the streaming
write, carrying the number of bytes already on disk and the exception
message. -/
structure DownloadWorld where
  headResult : Option Response
  getResult : Option Response
  writeExn : Option (Nat × String)
deriving DecidableEq

/-- Body of the `try:` block of `download_file` (web_scraper.py lines
200-273).  An `Except.error` is a raised exception (here: only the
streaming write can raise), carrying the message and the filesystem state
at the raise point (a partial file remains on disk). -/
def downloadFileBody (w : DownloadWorld) (fs : FS) (url filename : String) :
    Except (String × FS) (DownloadResult × FS) :=
  match w.headResult with
  | none =>
    .ok (⟨false, filename, 0, "Failed to get file headers after retries", url⟩, fs)
  | some head_response =>
    if (validate_excel_file head_response).1 then
      match w.getResult with
      | none =>
        .ok (⟨false, filename, 0, "Failed to download file after retries", url⟩, fs)
      | some response =>
        if (validate_excel_file response).1 then
          match w.writeExn with
          | some pm => .error (pm.2, FS.write fs filename pm.1)
          | none =>
            let fs1 := FS.write fs filename response.bodySize
            match FS.stat fs1 filename with
            | some file_size =>
              if file_size < 1000 then
                .ok (⟨false, filename, 0,
                  "Downloaded file too small (" ++ Nat.repr file_size
                    ++ " bytes). First bytes: ...", url⟩,
                  FS.unlink fs1 filename)
              else
                .ok (⟨true, filename, file_size, "", url⟩, fs1)
            | none =>
              .ok (⟨false, filename, 0, "File not created after download", url⟩, fs1)
        else
          .ok (⟨false, filename, 0, (validate_excel_file response).2, url⟩, fs)
    else
      .ok (⟨false, filename, 0, (validate_excel_file head_response).2, url⟩, fs)

/-- Model of `download_file` (web_scraper.py lines 186-276): the `try` body wrapped
in `except Exception as e: return DownloadResult(False, filename, 0,
f"Download failed: {str(e)}", url)` — every raised exception is converted
into a failed result, never propagated. -/
def download_file (w : DownloadWorld) (fs : FS) (url filename : String) :
    DownloadResult × FS :=
  match downloadFileBody w fs url filename with
  | .ok r => r
  | .error em => (⟨false, filename, 0, "Download failed: " ++ em.1, url⟩, em.2)

/-- The environment for processing one discovered link inside
`process_url`: the HEAD made by `get_filename_from_url` (when needed) and
the `download_file` environment. -/
structure LinkWorld where
  nameHead : Option Response
  dl : DownloadWorld

/-- The environment for one `process_url` call: the anchor hrefs of the
fetched page (`none` when the page fetch returns `None` after retries) and
a per-link environment, indexed by the link's 0-based position. -/
structure PageWorld where
  pageHrefs : Option (List String)
  linkWorlds : Nat → LinkWorld

/-- The `DatasetResult` dataclass (web_scraper.py lines 21-29). -/
structure DatasetResult where
  url : String
  dataset_name : String
  files_found : Nat
  files_downloaded : Nat
  downloaded_files : List DownloadResult
  errors : List String

/-- Mutable state threaded through the download loop of `process_url`:
the accumulating `DatasetResult` fields plus the download directory. -/
structure LoopState where
  files_downloaded : Nat
  downloaded_files : List DownloadResult
  errors : List String
  fs : FS

/-- The links collected by `process_url` (web_scraper.py lines 448-461):
anchors whose lower-cased href ends in a spreadsheet extension, resolved
against the site base URL, kept in document order with duplicates. -/
def discoveredLinks (pw : PageWorld) : List String :=
  match pw.pageHrefs with
  | none => []
  | some hrefs =>
    (hrefs.filter (fun h => decide (isExcelHrefSuffix h))).map (resolve_link base_url)

/-- The download loop of `process_url` (web_scraper.py lines 486-508):
for the `i`-th link (1-based), resolve a unique filename, download, append
the `DownloadResult`, and either bump `files_downloaded` or record an
error string. -/
def processLinks (pw : PageWorld) (dataset_name : String) :
    List String → Nat → LoopState → LoopState
  | [], _, st => st
  | link :: rest, i, st =>
    let lw := pw.linkWorlds (i - 1)
    let filename0 := get_filename_from_url lw.nameHead link dataset_name i
    let filename := (ensure_unique_filename st.fs filename0).getD filename0
    let dr := download_file lw.dl st.fs link filename
    let st1 :=
      if dr.1.success then
        { st with
          files_downloaded := st.files_downloaded + 1
          downloaded_files := st.downloaded_files ++ [dr.1]
          fs := dr.2 }
      else
        { st with
          downloaded_files := st.downloaded_files ++ [dr.1]
          errors := st.errors
            ++ ["Failed to download " ++ filename ++ ": " ++ dr.1.error_message]
          fs := dr.2 }
    processLinks pw dataset_name rest (i + 1) st1

/-- Model of `process_url` (web_scraper.py lines 406-519).  A failed page fetch and
a page with no spreadsheet links each yield a `DatasetResult` with an
explanatory error and no downloads; otherwise the download loop runs over
the discovered links.  The preview loop at lines 479-483 only prints (its
filename resolution touches no disk state) and is elided; the enclosing
`try/except` at lines 428-517 is not modelled because every step of the
model is total — the only modelled raise site, the streaming write, is
already caught inside `download_file`, matching the code where
`download_file` never lets an exception escape. -/
def process_url (pw : PageWorld) (fs0 : FS) (url : String) : DatasetResult × FS :=
  let dataset_name := extract_dataset_name url
  match pw.pageHrefs with
  | none =>
    (⟨url, dataset_name, 0, 0, [], ["Failed to fetch webpage after retries"]⟩, fs0)
  | some _ =>
    let excel_links := discoveredLinks pw
    if excel_links.isEmpty then
      (⟨url, dataset_name, excel_links.length, 0, [],
        ["No Excel files found on this page"]⟩, fs0)
    else
      let st := processLinks pw dataset_name excel_links 1 ⟨0, [], [], fs0⟩
      (⟨url, dataset_name, excel_links.length, st.files_downloaded,
        st.downloaded_files, st.errors⟩, st.fs)

/-- Outcomes on which the attempt loop retries (while attempts remain):
network errors, 429 responses, and responses whose status makes
`raise_for_status` raise (the raised `HTTPError` is caught by the
`except RequestException` clause). -/
def retryableOutcome (o : AttemptOutcome) : Prop :=
  match o with
  | .netError _ => True
  | .resp r => r.status = 429 ∨ raisesForStatus r.status

/-- The outcome is a response with status 429. -/
def is429 (o : AttemptOutcome) : Prop :=
  match o with
  | .netError _ => False
  | .resp r => r.status = 429

/-- The outcome is a response with a non-429 error status (4xx/5xx), i.e.
one on which `raise_for_status` raises `HTTPError`. -/
def isHttpErrorOutcome (o : AttemptOutcome) : Prop :=
  match o with
  | .netError _ => False
  | .resp r => raisesForStatus r.status ∧ r.status ≠ 429

/-- Fixture: a rate-limit response. -/
def resp429 : Response := ⟨429, some "text/html", some 100, none, 100⟩

/-- Fixture: a successful spreadsheet response. -/
def resp200ok : Response := ⟨200, some "application/vnd.ms-excel", some 5000, none, 5000⟩

/-- Fixture: a not-found response. -/
def resp404 : Response := ⟨404, some "text/html", some 512, none, 512⟩

/-- Fixture transport: 429 on attempts 0 and 1, then 200. -/
def transport429then200 : Nat → AttemptOutcome :=
  fun a => if a < 2 then .resp resp429 else .resp resp200ok

/-- Fixture transport: 429 on every attempt. -/
def transport429always : Nat → AttemptOutcome := fun _ => .resp resp429

/-- Fixture transport: 404 on attempt 0, then 200. -/
def transport404then200 : Nat → AttemptOutcome :=
  fun a => if a = 0 then .resp resp404 else .resp resp200ok

/-- Fixture transport: 404 on every attempt. -/
def transport404always : Nat → AttemptOutcome := fun _ => .resp resp404

/-- The per-file failure modes named by the spec's error-handling design:
HEAD unavailable after retries, HEAD validator rejection, GET unavailable
after retries, GET validator rejection, an exception raised during the
streamed write, or a truncated (< 1000 byte) body. -/
def downloadFailureMode (w : DownloadWorld) : Prop :=
  w.headResult = none ∨
  (∃ hr, w.headResult = some hr ∧ (validate_excel_file hr).1 = false) ∨
  w.getResult = none ∨
  (∃ gr, w.getResult = some gr ∧ (validate_excel_file gr).1 = false) ∨
  (∃ pm, w.writeExn = some pm) ∨
  (∃ gr, w.getResult = some gr ∧ gr.bodySize < 1000)

/-- The error string `process_url` records for a failed download
(web_scraper.py line 500). -/
def errorEntry (dr : DownloadResult) : String :=
  "Failed to download " ++ dr.filename ++ ": " ++ dr.error_message

/-- Numeric value of a decimal digit character (used to invert the decimal
rendering `Nat.repr` when proving the numeric suffixes distinct). -/
def digitVal (c : Char) : Nat := c.toNat - 48

/-- Value of a decimal digit string, most significant digit first. -/
def decVal (l : List Char) : Nat := l.foldl (fun acc c => acc * 10 + digitVal c) 0

/-! Theorems. -/

theorem requestGo_retry_step (t : Nat → AttemptOutcome) (M attempt fuel : Nat)
    (hret : retryableOutcome (t attempt)) (hlt : attempt < M) :
    requestGo t M attempt (fuel + 1) = requestGo t M (attempt + 1) fuel := by
  rcases h : t attempt with r | msg
  · rw [h] at hret
    simp only [retryableOutcome] at hret
    rcases hret with h429 | herr
    · simp [requestGo, h, h429, hlt]
    · by_cases h429 : r.status = 429
      · simp [requestGo, h, h429, hlt]
      · simp [requestGo, h, h429, herr, hlt]
  · simp [requestGo, h, hlt]

theorem requestGo_skip (t : Nat → AttemptOutcome) (M : Nat) :
    ∀ (k attempt fuel : Nat),
      (∀ j, j < k → retryableOutcome (t (attempt + j))) → attempt + k ≤ M →
      requestGo t M attempt (k + fuel + 1) = requestGo t M (attempt + k) (fuel + 1) := by
  intro k
  induction k with
  | zero =>
    intro attempt fuel _ _
    simp only [Nat.zero_add, Nat.add_zero]
  | succ k ih =>
    intro attempt fuel hret hbound
    have h0 : retryableOutcome (t attempt) := by
      have := hret 0 (by omega)
      simpa using this
    have hlt : attempt < M := by omega
    have hidx : k + 1 + fuel + 1 = (k + fuel + 1) + 1 := by omega
    rw [hidx, requestGo_retry_step t M attempt (k + fuel + 1) h0 hlt]
    have hshift : ∀ j, j < k → retryableOutcome (t (attempt + 1 + j)) := by
      intro j hj
      have := hret (j + 1) (by omega)
      have harg : attempt + (j + 1) = attempt + 1 + j := by omega
      rwa [harg] at this
    have := ih (attempt + 1) fuel hshift (by omega)
    rw [this]
    have harg : attempt + 1 + k = attempt + (k + 1) := by omega
    rw [harg]

theorem is429_retryable (o : AttemptOutcome) (h : is429 o) : retryableOutcome o := by
  rcases o with r | msg
  · simp only [is429] at h
    simp only [retryableOutcome]
    exact Or.inl h
  · simp [retryableOutcome]

theorem isHttpError_retryable (o : AttemptOutcome) (h : isHttpErrorOutcome o) :
    retryableOutcome o := by
  rcases o with r | msg
  · simp only [isHttpErrorOutcome] at h
    simp only [retryableOutcome]
    exact Or.inr h.1
  · simp [retryableOutcome]

theorem requestGo_last_retryable (t : Nat → AttemptOutcome) (M attempt fuel : Nat)
    (h : retryableOutcome (t attempt)) (hge : ¬ attempt < M) :
    requestGo t M attempt (fuel + 1) = none := by
  rcases ht : t attempt with r | msg
  · rw [ht] at h
    simp only [retryableOutcome] at h
    rcases h with h429 | herr
    · simp [requestGo, ht, h429, hge]
    · by_cases h429 : r.status = 429
      · simp [requestGo, ht, h429, hge]
      · simp [requestGo, ht, h429, herr, hge]
  · simp [requestGo, ht, hge]

theorem requestGo_success_step (t : Nat → AttemptOutcome) (M attempt fuel : Nat)
    (r : Response) (ht : t attempt = .resp r) (h429 : r.status ≠ 429)
    (herr : ¬ raisesForStatus r.status) :
    requestGo t M attempt (fuel + 1) = some r := by
  simp [requestGo, ht, h429, herr]

/-- C2 (confirmed): with `max_retries = n`, if the transport answers 429 on
the first `n` attempts and 200 on attempt `n + 1`, `make_request_with_retry`
returns that 200 response; if it answers 429 on all `n + 1` attempts, the
call returns `None`. -/
theorem make_request_retry_policy (n : Nat) (t : Nat → AttemptOutcome) :
    (∀ r : Response, (∀ a, a < n → is429 (t a)) → t n = .resp r → r.status = 200 →
      make_request_with_retry t n = some r) ∧
    ((∀ a, a ≤ n → is429 (t a)) → make_request_with_retry t n = none) := by
  constructor
  · intro r h429 htn h200
    unfold make_request_with_retry
    have hskip := requestGo_skip t n n 0 0
      (fun j hj => is429_retryable _ (by simpa using h429 j hj)) (by omega)
    simp only [Nat.add_zero, Nat.zero_add] at hskip
    rw [hskip]
    have := requestGo_success_step t n n 0 r htn
      (by rw [h200]; omega) (by rw [h200]; simp [raisesForStatus])
    simpa using this
  · intro h429
    unfold make_request_with_retry
    have hskip := requestGo_skip t n n 0 0
      (fun j hj => is429_retryable _ (by simpa using h429 j (by omega))) (by omega)
    simp only [Nat.add_zero, Nat.zero_add] at hskip
    rw [hskip]
    have := requestGo_last_retryable t n n 0
      (is429_retryable _ (h429 n (by omega))) (by omega)
    simpa using this

/-- Witness for C2 at `max_retries = 2`: 429 twice then 200 yields the 200
response; 429 on all three attempts yields `None`. -/
theorem make_request_retry_policy_witness :
    make_request_with_retry transport429then200 2 = some resp200ok ∧
    make_request_with_retry transport429always 2 = none := by
  constructor
  · exact (make_request_retry_policy 2 transport429then200).1 resp200ok
      (by intro a ha; interval_cases a <;> simp [is429, transport429then200, resp429])
      (by simp [transport429then200]) rfl
  · exact (make_request_retry_policy 2 transport429always).2
      (fun a _ => by simp [is429, transport429always, resp429])

/-- C1 counterexample: with `max_retries = 3` and a transport that answers
404 on attempt 0 and 200 on attempt 1, `make_request_with_retry` returns
the 200 response from the second attempt — so on a non-2xx, non-429 status
the call does not fail on the first attempt, performs a retry, and
propagates no `HTTPStatusError` (the `HTTPError` raised by
`raise_for_status` is caught by the `except RequestException` clause). -/
theorem make_request_404_retried_counterexample :
    make_request_with_retry transport404then200 3 = some resp200ok := by decide

/-- C1 (corrected): on a non-2xx, non-429 status the `HTTPError` raised by
`raise_for_status` is caught like a network failure and the request is
retried with backoff; when every attempt through `max_retries + 1` yields
such a status the call returns `None` instead of propagating, and when a
later attempt succeeds its response is returned. -/
theorem make_request_http_error_retried (n : Nat) (t : Nat → AttemptOutcome) :
    ((∀ a, a ≤ n → isHttpErrorOutcome (t a)) → make_request_with_retry t n = none) ∧
    (∀ r : Response, 0 < n → isHttpErrorOutcome (t 0) → t 1 = .resp r →
      r.status = 200 → make_request_with_retry t n = some r) := by
  constructor
  · intro herr
    unfold make_request_with_retry
    have hskip := requestGo_skip t n n 0 0
      (fun j hj => isHttpError_retryable _ (by simpa using herr j (by omega))) (by omega)
    simp only [Nat.add_zero, Nat.zero_add] at hskip
    rw [hskip]
    have := requestGo_last_retryable t n n 0
      (isHttpError_retryable _ (herr n (by omega))) (by omega)
    simpa using this
  · intro r hn h0 ht1 h200
    unfold make_request_with_retry
    have hskip := requestGo_skip t n 1 0 (n - 1)
      (fun j hj => by
        have hj0 : j = 0 := by omega
        subst hj0
        exact isHttpError_retryable _ (by simpa using h0)) (by omega)
    have h1 : 1 + (n - 1) + 1 = n + 1 := by omega
    rw [h1, Nat.zero_add] at hskip
    rw [hskip]
    exact requestGo_success_step t n 1 (n - 1) r ht1
      (by rw [h200]; omega) (by rw [h200]; simp [raisesForStatus])

/-- Witness for the corrected C1 at `max_retries = 2`: 404 on every attempt
yields `None`; 404 then 200 yields the 200 response. -/
theorem make_request_http_error_retried_witness :
    make_request_with_retry transport404always 2 = none ∧
    make_request_with_retry transport404then200 2 = some resp200ok := by
  constructor
  · exact (make_request_http_error_retried 2 transport404always).1
      (fun a _ => by simp [isHttpErrorOutcome, transport404always, resp404, raisesForStatus])
  · exact (make_request_http_error_retried 2 transport404then200).2 resp200ok
      (by omega)
      (by simp [isHttpErrorOutcome, transport404then200, resp404, raisesForStatus])
      (by simp [transport404then200]) rfl

theorem sub_extend_left {α : Type} (l m x : List α) (h : l <:+: m) :
    l <:+: x ++ m := by
  rcases h with ⟨s, t, hst⟩
  exact ⟨x ++ s, t, by simpa [List.append_assoc] using congrArg (x ++ ·) hst⟩

theorem isExcelHref_append_left (x href : String) (h : isExcelHref href) :
    isExcelHref (x ++ href) := by
  unfold isExcelHref strContains lowerStr at h ⊢
  rw [String.data_append, List.map_append]
  rcases h with h | h
  · exact Or.inl (sub_extend_left _ _ _ h)
  · exact Or.inr (sub_extend_left _ _ _ h)

theorem lstripSlash_of_not_slash (href : String) (h : ¬ strStarts href "/") :
    lstripSlash href = href := by
  unfold lstripSlash
  unfold strStarts at h
  cases hd : href.data with
  | nil => rw [String.ext_iff]; simp [hd]
  | cons c t =>
    rw [hd] at h
    have hc : c ≠ '/' := by
      intro hcc
      exact h ⟨t, by rw [hcc]; rfl⟩
    rw [String.ext_iff]
    simp [hd, List.dropWhile_cons, hc]

/-- C3 counterexample: `extract_excel_links` keeps any href merely
containing a spreadsheet extension, so a page with the single anchor
`/file.xlsx.html` yields the URL
`https://www.ons.gov.uk/file.xlsx.html`, whose path does not end in
`.xlsx` or `.xls` — refuting the claim that every returned URL's path ends
in a spreadsheet extension. -/
theorem extract_excel_links_counterexample :
    "https://www.ons.gov.uk/file.xlsx.html" ∈
      extract_excel_links ["/file.xlsx.html"] "https://www.ons.gov.uk" ∧
    ¬ endsWithExcelExt "https://www.ons.gov.uk/file.xlsx.html" ∧
    ¬ endsWithExcelExt (urlPath "https://www.ons.gov.uk/file.xlsx.html") := by
  refine ⟨by decide, by decide, by decide⟩

/-- C3 (corrected): every URL returned by `extract_excel_links` contains
`.xlsx` or `.xls` as a case-insensitive substring (rather than as a path
suffix), and the returned collection is duplicate-free. -/
theorem extract_excel_links_spec (hrefs : List String) (base : String) (u : String)
    (hu : u ∈ extract_excel_links hrefs base) :
    isExcelHref u ∧ (extract_excel_links hrefs base).val.Nodup := by
  refine ⟨?_, (extract_excel_links hrefs base).nodup⟩
  unfold extract_excel_links at hu
  rw [List.mem_toFinset] at hu
  rcases List.mem_map.mp hu with ⟨href, hmem, rfl⟩
  rcases List.mem_filter.mp hmem with ⟨_, hQ⟩
  have hhref : isExcelHref href := of_decide_eq_true hQ
  unfold resolve_link
  by_cases h1 : strStarts href "/"
  · rw [if_pos h1]
    exact isExcelHref_append_left base href hhref
  · rw [if_neg h1]
    by_cases h2 : strStarts href "http"
    · rw [if_neg (by simpa using h2)]
      exact hhref
    · rw [if_pos (by simpa using h2)]
      rw [lstripSlash_of_not_slash href h1]
      exact isExcelHref_append_left (base ++ "/") href hhref

/-- Witness for the corrected C3: the single anchor `/vacs01.xlsx` resolves
to a URL that contains `.xls`/`.xlsx` case-insensitively. -/
theorem extract_excel_links_spec_witness :
    isExcelHref "https://www.ons.gov.uk/vacs01.xlsx" ∧
      (extract_excel_links ["/vacs01.xlsx"] "https://www.ons.gov.uk").val.Nodup :=
  extract_excel_links_spec ["/vacs01.xlsx"] "https://www.ons.gov.uk"
    "https://www.ons.gov.uk/vacs01.xlsx" (by decide)

/-- C6 (confirmed): `validate_excel_file` rejects whenever the declared
Content-Type contains `html` or `text` (case-insensitively, as the code
lower-cases the header before testing); when it contains neither, it
rejects whenever a declared Content-Length is present, positive and below
1000 bytes, and passes whenever the declared Content-Length is at least
1000, absent, or zero. -/
theorem validate_excel_file_spec (r : Response) :
    (strContains (lowerStr (r.contentType.getD "")) "html" ∨
        strContains (lowerStr (r.contentType.getD "")) "text" →
      (validate_excel_file r).1 = false) ∧
    (¬ (strContains (lowerStr (r.contentType.getD "")) "html" ∨
        strContains (lowerStr (r.contentType.getD "")) "text") →
      (∀ n, r.contentLength = some n → 0 < n → n < 1000 →
        (validate_excel_file r).1 = false) ∧
      ((r.contentLength = none ∨ r.contentLength = some 0 ∨
          (∃ n, r.contentLength = some n ∧ 1000 ≤ n)) →
        (validate_excel_file r).1 = true)) := by
  constructor
  · intro h
    simp [validate_excel_file, h]
  · intro h
    constructor
    · intro n hn h0 hlt
      simp [validate_excel_file, h, hn, h0, hlt]
    · intro hlen
      rcases hlen with hn | hn | ⟨n, hn, hge⟩
      · simp [validate_excel_file, h, hn]
      · simp [validate_excel_file, h, hn]
      · simp only [validate_excel_file, hn, Option.getD_some]
        rw [if_neg h, if_neg (by omega)]

/-- Witness for C6: an HTML response is rejected, a 500-byte spreadsheet
response is rejected, and a 5000-byte spreadsheet response passes. -/
theorem validate_excel_file_spec_witness :
    (validate_excel_file ⟨200, some "text/html", some 5000, none, 5000⟩).1 = false ∧
    (validate_excel_file ⟨200, some "application/vnd.ms-excel", some 500, none, 500⟩).1 = false ∧
    (validate_excel_file ⟨200, some "application/vnd.ms-excel", some 5000, none, 5000⟩).1 = true :=
  ⟨(validate_excel_file_spec _).1 (by decide),
   ((validate_excel_file_spec _).2 (by decide)).1 500 rfl (by omega) (by omega),
   ((validate_excel_file_spec _).2 (by decide)).2 (Or.inr (Or.inr ⟨5000, rfl, by omega⟩))⟩

theorem FS.stat_write (fs : FS) (name : String) (size : Nat) :
    FS.stat (FS.write fs name size) name = some size := by
  simp [FS.stat, FS.write, List.find?]

theorem FS.stat_unlink (fs : FS) (name : String) :
    FS.stat (FS.unlink fs name) name = none := by
  unfold FS.stat FS.unlink
  induction fs with
  | nil => rfl
  | cons p t ih =>
    by_cases hp : p.1 == name
    · simp only [List.filter, hp, Bool.not_true]
      exact ih
    · simp only [List.filter, hp, Bool.not_false, List.find?]
      exact ih

theorem download_file_of_valid (w : DownloadWorld) (fs : FS) (url filename : String)
    (hr gr : Response) (hh : w.headResult = some hr)
    (hv1 : (validate_excel_file hr).1 = true)
    (hg : w.getResult = some gr) (hv2 : (validate_excel_file gr).1 = true)
    (hw : w.writeExn = none) (hsz : ¬ gr.bodySize < 1000) :
    download_file w fs url filename =
      (⟨true, filename, gr.bodySize, "", url⟩, FS.write fs filename gr.bodySize) := by
  unfold download_file downloadFileBody
  simp only [hh, hg, hw, hv1, hv2, if_true, FS.stat_write]
  rw [if_neg hsz]

theorem download_file_too_small (w : DownloadWorld) (fs : FS) (url filename : String)
    (hr gr : Response) (hh : w.headResult = some hr)
    (hv1 : (validate_excel_file hr).1 = true)
    (hg : w.getResult = some gr) (hv2 : (validate_excel_file gr).1 = true)
    (hw : w.writeExn = none) (hsz : gr.bodySize < 1000) :
    download_file w fs url filename =
      (⟨false, filename, 0,
        "Downloaded file too small (" ++ Nat.repr gr.bodySize
          ++ " bytes). First bytes: ...", url⟩,
       FS.unlink (FS.write fs filename gr.bodySize) filename) := by
  unfold download_file downloadFileBody
  simp only [hh, hg, hw, hv1, hv2, if_true, FS.stat_write]
  rw [if_pos hsz]

theorem download_file_success_iff (w : DownloadWorld) (fs : FS) (url filename : String) :
    (download_file w fs url filename).1.success = true ↔
      ∃ hr gr, w.headResult = some hr ∧ (validate_excel_file hr).1 = true ∧
        w.getResult = some gr ∧ (validate_excel_file gr).1 = true ∧
        w.writeExn = none ∧ 1000 ≤ gr.bodySize := by
  constructor
  · intro h
    rcases hh : w.headResult with _ | hr
    · simp [download_file, downloadFileBody, hh] at h
    · by_cases hv1 : (validate_excel_file hr).1
      · rcases hg : w.getResult with _ | gr
        · simp [download_file, downloadFileBody, hh, hv1, hg] at h
        · by_cases hv2 : (validate_excel_file gr).1
          · rcases hw : w.writeExn with _ | pm
            · by_cases hsz : gr.bodySize < 1000
              · rw [download_file_too_small w fs url filename hr gr hh
                  (by simpa using hv1) hg (by simpa using hv2) hw hsz] at h
                simp at h
              · exact ⟨hr, gr, rfl, by simpa using hv1, rfl, by simpa using hv2, rfl,
                  by omega⟩
            · simp [download_file, downloadFileBody, hh, hv1, hg, hv2, hw] at h
          · simp [download_file, downloadFileBody, hh, hv1, hg, hv2] at h
      · simp [download_file, downloadFileBody, hh, hv1] at h
  · rintro ⟨hr, gr, hh, hv1, hg, hv2, hw, hsz⟩
    rw [download_file_of_valid w fs url filename hr gr hh hv1 hg hv2 hw (by omega)]

/-- C4 (confirmed): whenever `download_file` reports `success = true`, the
target file exists in the download directory afterwards, its on-disk size
equals the recorded `file_size`, and that size is at least the 1000-byte
minimum valid-file-size threshold. -/
theorem download_file_success_invariant (w : DownloadWorld) (fs : FS)
    (url filename : String)
    (h : (download_file w fs url filename).1.success = true) :
    FS.stat (download_file w fs url filename).2 filename =
      some (download_file w fs url filename).1.file_size ∧
    1000 ≤ (download_file w fs url filename).1.file_size := by
  rcases (download_file_success_iff w fs url filename).mp h with
    ⟨hr, gr, hh, hv1, hg, hv2, hw, hsz⟩
  rw [download_file_of_valid w fs url filename hr gr hh hv1 hg hv2 hw (by omega)]
  exact ⟨FS.stat_write fs filename gr.bodySize, hsz⟩

/-- Witness for C4: a clean 5000-byte download succeeds and the invariant
holds at that input. -/
theorem download_file_success_invariant_witness :
    FS.stat (download_file
        ⟨some ⟨200, some "application/vnd.ms-excel", some 5000, none, 5000⟩,
         some ⟨200, some "application/vnd.ms-excel", some 5000, none, 5000⟩, none⟩
        [] "https://www.ons.gov.uk/vacs01.xlsx" "vacs01.xlsx").2 "vacs01.xlsx" =
      some (download_file
        ⟨some ⟨200, some "application/vnd.ms-excel", some 5000, none, 5000⟩,
         some ⟨200, some "application/vnd.ms-excel", some 5000, none, 5000⟩, none⟩
        [] "https://www.ons.gov.uk/vacs01.xlsx" "vacs01.xlsx").1.file_size ∧
    1000 ≤ (download_file
        ⟨some ⟨200, some "application/vnd.ms-excel", some 5000, none, 5000⟩,
         some ⟨200, some "application/vnd.ms-excel", some 5000, none, 5000⟩, none⟩
        [] "https://www.ons.gov.uk/vacs01.xlsx" "vacs01.xlsx").1.file_size :=
  download_file_success_invariant _ _ _ _ (by decide)

/-- C7 (confirmed): when the streamed write completes but the resulting
body is below 1000 bytes, `download_file` returns a failed result whose
error message contains the decimal size, and the partial file is removed
from the download directory. -/
theorem download_file_truncated_cleanup (w : DownloadWorld) (fs : FS)
    (url filename : String) (hr gr : Response) (hh : w.headResult = some hr)
    (hv1 : (validate_excel_file hr).1 = true)
    (hg : w.getResult = some gr) (hv2 : (validate_excel_file gr).1 = true)
    (hw : w.writeExn = none) (hsz : gr.bodySize < 1000) :
    (download_file w fs url filename).1.success = false ∧
    strContains (download_file w fs url filename).1.error_message
      (Nat.repr gr.bodySize) ∧
    FS.stat (download_file w fs url filename).2 filename = none := by
  rw [download_file_too_small w fs url filename hr gr hh hv1 hg hv2 hw hsz]
  refine ⟨rfl, ?_, FS.stat_unlink _ _⟩
  unfold strContains
  exact ⟨"Downloaded file too small (".data, " bytes). First bytes: ...".data,
    by simp [String.data_append, List.append_assoc]⟩

/-- Witness for C7: a download whose headers declare 5000 bytes but whose
body is 500 bytes fails, mentions `500` in the error, and leaves no file. -/
theorem download_file_truncated_cleanup_witness :
    (download_file
        ⟨some ⟨200, some "application/vnd.ms-excel", some 5000, none, 5000⟩,
         some ⟨200, some "application/vnd.ms-excel", some 5000, none, 500⟩, none⟩
        [("old.xlsx", 4000)] "https://www.ons.gov.uk/vacs01.xlsx" "vacs01.xlsx").1.success
        = false ∧
    strContains (download_file
        ⟨some ⟨200, some "application/vnd.ms-excel", some 5000, none, 5000⟩,
         some ⟨200, some "application/vnd.ms-excel", some 5000, none, 500⟩, none⟩
        [("old.xlsx", 4000)] "https://www.ons.gov.uk/vacs01.xlsx" "vacs01.xlsx").1.error_message
      (Nat.repr 500) ∧
    FS.stat (download_file
        ⟨some ⟨200, some "application/vnd.ms-excel", some 5000, none, 5000⟩,
         some ⟨200, some "application/vnd.ms-excel", some 5000, none, 500⟩, none⟩
        [("old.xlsx", 4000)] "https://www.ons.gov.uk/vacs01.xlsx" "vacs01.xlsx").2
      "vacs01.xlsx" = none :=
  download_file_truncated_cleanup _ _ _ _
    ⟨200, some "application/vnd.ms-excel", some 5000, none, 5000⟩
    ⟨200, some "application/vnd.ms-excel", some 5000, none, 500⟩
    rfl (by decide) rfl (by decide) rfl (by decide)

theorem download_file_filename (w : DownloadWorld) (fs : FS) (url filename : String) :
    (download_file w fs url filename).1.filename = filename := by
  rcases hh : w.headResult with _ | hr
  · simp [download_file, downloadFileBody, hh]
  · by_cases hv1 : (validate_excel_file hr).1
    · rcases hg : w.getResult with _ | gr
      · simp [download_file, downloadFileBody, hh, hv1, hg]
      · by_cases hv2 : (validate_excel_file gr).1
        · rcases hw : w.writeExn with _ | pm
          · by_cases hsz : gr.bodySize < 1000
            · rw [download_file_too_small w fs url filename hr gr hh
                (by simpa using hv1) hg (by simpa using hv2) hw hsz]
            · rw [download_file_of_valid w fs url filename hr gr hh
                (by simpa using hv1) hg (by simpa using hv2) hw hsz]
          · simp [download_file, downloadFileBody, hh, hv1, hg, hv2, hw]
        · simp [download_file, downloadFileBody, hh, hv1, hg, hv2]
    · simp [download_file, downloadFileBody, hh, hv1]

theorem processLinks_length (pw : PageWorld) (dn : String) :
    ∀ (links : List String) (i : Nat) (st : LoopState),
      (processLinks pw dn links i st).downloaded_files.length =
        st.downloaded_files.length + links.length := by
  intro links
  induction links with
  | nil => intro i st; simp [processLinks]
  | cons link rest ih =>
    intro i st
    simp only [processLinks]
    split
    · rw [ih]
      simp only [List.length_append, List.length_cons, List.length_nil]
      omega
    · rw [ih]
      simp only [List.length_append, List.length_cons, List.length_nil]
      omega

theorem processLinks_count (pw : PageWorld) (dn : String) :
    ∀ (links : List String) (i : Nat) (st : LoopState),
      st.files_downloaded = (st.downloaded_files.filter (fun dr => dr.success)).length →
      (processLinks pw dn links i st).files_downloaded =
        ((processLinks pw dn links i st).downloaded_files.filter
          (fun dr => dr.success)).length := by
  intro links
  induction links with
  | nil => intro i st h; simpa [processLinks] using h
  | cons link rest ih =>
    intro i st h
    simp only [processLinks]
    split
    · apply ih
      next hs =>
        simp only [List.filter_append, List.length_append, List.filter, hs,
          List.length_cons, List.length_nil]
        omega
    · apply ih
      next hs =>
        rw [Bool.not_eq_true] at hs
        simp only [List.filter_append, List.length_append, List.filter, hs,
          List.length_nil]
        omega

theorem processLinks_errors_invariant (pw : PageWorld) (dn : String) :
    ∀ (links : List String) (i : Nat) (st : LoopState),
      (∀ dr ∈ st.downloaded_files, dr.success = false → errorEntry dr ∈ st.errors) →
      ∀ dr ∈ (processLinks pw dn links i st).downloaded_files, dr.success = false →
        errorEntry dr ∈ (processLinks pw dn links i st).errors := by
  intro links
  induction links with
  | nil => intro i st hinv; simpa [processLinks] using hinv
  | cons link rest ih =>
    intro i st hinv
    simp only [processLinks]
    split
    · apply ih
      next hs =>
        intro dr hmem hfail
        rcases List.mem_append.mp hmem with hold | hnew
        · exact hinv dr hold hfail
        · rw [List.mem_singleton] at hnew
          subst hnew
          rw [hs] at hfail
          cases hfail
    · apply ih
      next hs =>
        intro dr hmem hfail
        rcases List.mem_append.mp hmem with hold | hnew
        · exact List.mem_append_left _ (hinv dr hold hfail)
        · rw [List.mem_singleton] at hnew
          subst hnew
          apply List.mem_append_right
          rw [List.mem_singleton]
          unfold errorEntry
          rw [download_file_filename]

/-- C5 (confirmed): in every `DatasetResult` produced by `process_url`, the
`files_downloaded` count equals the number of entries of
`downloaded_files` whose `success` flag is true. -/
theorem process_url_count_invariant (pw : PageWorld) (fs0 : FS) (url : String) :
    (process_url pw fs0 url).1.files_downloaded =
      ((process_url pw fs0 url).1.downloaded_files.filter
        (fun dr => dr.success)).length := by
  unfold process_url
  rcases hp : pw.pageHrefs with _ | hrefs
  · simp
  · simp only
    by_cases he : (discoveredLinks pw).isEmpty
    · simp [he]
    · simp only [he, if_false]
      exact processLinks_count pw (extract_dataset_name url) (discoveredLinks pw) 1
        ⟨0, [], [], fs0⟩ (by simp)

/-- C8 (confirmed): under every per-file failure mode (headers unavailable,
validator rejection on HEAD or GET, download unavailable, an exception
raised during the write, or a truncated body), `download_file` returns a
failed `DownloadResult` instead of raising; and `process_url` always
records one `DownloadResult` per discovered link (continuing past
failures) and an error entry for every failed download, returning a
`DatasetResult` rather than propagating any exception. -/
theorem download_failures_recovered (w : DownloadWorld) (fs : FS)
    (url filename : String) (hfail : downloadFailureMode w) :
    (download_file w fs url filename).1.success = false ∧
    ∀ (pw : PageWorld) (fs0 : FS) (purl : String),
      (process_url pw fs0 purl).1.downloaded_files.length =
        (discoveredLinks pw).length ∧
      ∀ dr ∈ (process_url pw fs0 purl).1.downloaded_files, dr.success = false →
        errorEntry dr ∈ (process_url pw fs0 purl).1.errors := by
  constructor
  · rw [← Bool.not_eq_true]
    intro hs
    rcases (download_file_success_iff w fs url filename).mp hs with
      ⟨hr, gr, hh, hv1, hg, hv2, hw, hsz⟩
    rcases hfail with h | ⟨hr2, h, hval⟩ | h | ⟨gr2, h, hval⟩ | ⟨pm, h⟩ | ⟨gr2, h, hless⟩
    · rw [h] at hh; cases hh
    · rw [h] at hh
      cases hh
      rw [hv1] at hval
      cases hval
    · rw [h] at hg; cases hg
    · rw [h] at hg
      cases hg
      rw [hv2] at hval
      cases hval
    · rw [h] at hw; cases hw
    · rw [h] at hg
      cases hg
      omega
  · intro pw fs0 purl
    unfold process_url
    rcases hp : pw.pageHrefs with _ | hrefs
    · constructor
      · simp [discoveredLinks, hp]
      · intro dr hdr
        simp at hdr
    · simp only
      by_cases he : (discoveredLinks pw).isEmpty
      · constructor
        · simp [he, List.isEmpty_iff.mp he]
        · intro dr hdr
          simp [he] at hdr
      · rw [if_neg he]
        constructor
        · rw [processLinks_length pw (extract_dataset_name purl) (discoveredLinks pw) 1
            ⟨0, [], [], fs0⟩]
          simp
        · exact processLinks_errors_invariant pw (extract_dataset_name purl)
            (discoveredLinks pw) 1 ⟨0, [], [], fs0⟩ (by simp)

/-- Witness for C8: with the HEAD request failing after retries, the
download fails (rather than raising), and `process_url` on a page holding
one spreadsheet link whose download HEAD fails records the failure and
continues. -/
theorem download_failures_recovered_witness :
    (download_file ⟨none, none, none⟩ [] "https://www.ons.gov.uk/vacs01.xlsx"
      "vacs01.xlsx").1.success = false :=
  (download_failures_recovered ⟨none, none, none⟩ []
    "https://www.ons.gov.uk/vacs01.xlsx" "vacs01.xlsx" (Or.inl rfl)).1

theorem digitVal_digitChar (n : Nat) (h : n < 10) :
    digitVal (Nat.digitChar n) = n := by
  interval_cases n <;> decide

theorem decVal_append_singleton (l : List Char) (c : Char) :
    decVal (l ++ [c]) = decVal l * 10 + digitVal c := by
  unfold decVal
  rw [List.foldl_append]
  rfl

theorem toDigitsCore_decVal :
    ∀ (fuel n : Nat) (ds : List Char), n < fuel →
      ∃ pre, Nat.toDigitsCore 10 fuel n ds = pre ++ ds ∧ decVal pre = n := by
  intro fuel
  induction fuel with
  | zero => intro n ds h; omega
  | succ fuel ih =>
    intro n ds h
    by_cases hdiv : n / 10 = 0
    · refine ⟨[Nat.digitChar (n % 10)], ?_, ?_⟩
      · simp [Nat.toDigitsCore, hdiv]
      · have hlt : n < 10 := by omega
        rw [Nat.mod_eq_of_lt hlt]
        have := digitVal_digitChar n hlt
        simpa [decVal] using this
    · have hn10 : n / 10 < fuel := by omega
      rcases ih (n / 10) (Nat.digitChar (n % 10) :: ds) hn10 with ⟨pre, hpre, hval⟩
      refine ⟨pre ++ [Nat.digitChar (n % 10)], ?_, ?_⟩
      · rw [show Nat.toDigitsCore 10 (fuel + 1) n ds =
            Nat.toDigitsCore 10 fuel (n / 10) (Nat.digitChar (n % 10) :: ds) by
          simp [Nat.toDigitsCore, hdiv]]
        rw [hpre]
        simp [List.append_assoc]
      · rw [decVal_append_singleton, hval,
          digitVal_digitChar (n % 10) (Nat.mod_lt n (by omega))]
        omega

theorem decVal_repr (n : Nat) : decVal (Nat.repr n).data = n := by
  rcases toDigitsCore_decVal (n + 1) n [] (by omega) with ⟨pre, hpre, hval⟩
  have : Nat.repr n = List.asString (pre ++ []) := by
    unfold Nat.repr Nat.toDigits
    rw [hpre]
  rw [this]
  simpa [List.asString] using hval

theorem repr_inj_nat (m n : Nat) (h : Nat.repr m = Nat.repr n) : m = n := by
  have := congrArg (fun s => decVal s.data) h
  simpa [decVal_repr] using this

theorem uniqueCandidate_inj (b e : String) (k j : Nat)
    (h : uniqueCandidate b e k = uniqueCandidate b e j) : k = j := by
  unfold uniqueCandidate at h
  have hd := congrArg String.data h
  simp only [String.data_append] at hd
  have h1 := (List.append_inj' hd rfl).1
  have h2 := List.append_inj_right h1 rfl
  have h3 := congrArg decVal h2
  rw [decVal_repr, decVal_repr] at h3
  exact h3

theorem stat_isSome_mem (fs : FS) (name : String)
    (h : FS.fileExists fs name = true) : name ∈ fs.map Prod.fst := by
  unfold FS.fileExists FS.stat at h
  cases hf : fs.find? (fun p => p.1 == name) with
  | none => rw [hf] at h; simp at h
  | some p =>
    have hp : p.1 = name := by simpa using List.find?_some hf
    have hmem := List.mem_of_find?_eq_some hf
    exact hp ▸ List.mem_map_of_mem Prod.fst hmem

theorem fileExists_size_pos (fs : FS) (name : String)
    (h : FS.fileExists fs name = true) : 0 < FS.size fs := by
  have hmem := stat_isSome_mem fs name h
  have := List.length_pos_of_mem hmem
  simpa [FS.size] using this

theorem exists_free_candidate (fs : FS) (b e : String) :
    ∃ j, j < FS.size fs + 1 ∧
      FS.fileExists fs (uniqueCandidate b e (1 + j)) = false := by
  by_contra hall
  push_neg at hall
  have htrue : ∀ j, j < FS.size fs + 1 →
      FS.fileExists fs (uniqueCandidate b e (1 + j)) = true := by
    intro j hj
    cases hb : FS.fileExists fs (uniqueCandidate b e (1 + j))
    · exact absurd hb (hall j hj)
    · rfl
  have hinj : Function.Injective (fun j : Nat => uniqueCandidate b e (1 + j)) := by
    intro j1 j2 hj
    have := uniqueCandidate_inj b e (1 + j1) (1 + j2) hj
    omega
  have hsub : (Finset.range (FS.size fs + 1)).image
      (fun j => uniqueCandidate b e (1 + j)) ⊆ (fs.map Prod.fst).toFinset := by
    intro x hx
    rcases Finset.mem_image.mp hx with ⟨j, hj, rfl⟩
    rw [List.mem_toFinset]
    exact stat_isSome_mem fs _ (htrue j (Finset.mem_range.mp hj))
  have hcard := Finset.card_le_card hsub
  rw [Finset.card_image_of_injective _ hinj, Finset.card_range] at hcard
  have hle := List.toFinset_card_le (fs.map Prod.fst)
  rw [List.length_map] at hle
  unfold FS.size at hcard
  omega

theorem findUnique_success (fs : FS) (b e : String) :
    ∀ (fuel counter : Nat),
      (∃ j, j < fuel ∧ FS.fileExists fs (uniqueCandidate b e (counter + j)) = false) →
      ∃ r, findUnique fs b e counter fuel = some r ∧ FS.fileExists fs r = false := by
  intro fuel
  induction fuel with
  | zero => intro counter h; rcases h with ⟨j, hj, _⟩; omega
  | succ fuel ih =>
    intro counter h
    by_cases hc : FS.fileExists fs (uniqueCandidate b e counter)
    · rcases h with ⟨j, hj, hfree⟩
      have hj0 : j ≠ 0 := by
        intro h0
        subst h0
        rw [Nat.add_zero] at hfree
        rw [hfree] at hc
        cases hc
      have hstep : counter + 1 + (j - 1) = counter + j := by omega
      rcases ih (counter + 1) ⟨j - 1, by omega, by rw [hstep]; exact hfree⟩ with
        ⟨r, hr, hfr⟩
      exact ⟨r, by simp [findUnique, hc, hr], hfr⟩
    · refine ⟨uniqueCandidate b e counter, by simp [findUnique, hc], ?_⟩
      cases hb : FS.fileExists fs (uniqueCandidate b e counter)
      · rfl
      · exact absurd hb hc

/-- C10 (confirmed): for every finite download-directory state and every
filename, `ensure_unique_filename` terminates within its fuel and returns a
filename not present in the directory. -/
theorem ensure_unique_filename_total (fs : FS) (filename : String) :
    ∃ r, ensure_unique_filename fs filename = some r ∧
      FS.fileExists fs r = false := by
  unfold ensure_unique_filename
  by_cases hc : FS.fileExists fs filename
  · rw [if_pos hc]
    apply findUnique_success
    rcases exists_free_candidate fs (splitext filename).1 (splitext filename).2 with
      ⟨j, hj, hfree⟩
    exact ⟨j, hj, hfree⟩
  · rw [if_neg hc]
    refine ⟨filename, rfl, ?_⟩
    cases hb : FS.fileExists fs filename
    · rfl
    · exact absurd hb hc

/-- C9 (confirmed): `ensure_unique_filename` returns the filename unchanged
when it is absent from the directory; when it is present and the `_1`
variant is absent, it returns the `_1` variant; when the name and its `_1`
variant are present and `_2` is absent, it returns the `_2` variant — the
first-fit numeric suffix with no remaining collision. -/
theorem ensure_unique_filename_spec (fs : FS) (filename : String) :
    (FS.fileExists fs filename = false →
      ensure_unique_filename fs filename = some filename) ∧
    (FS.fileExists fs filename = true →
      FS.fileExists fs
        (uniqueCandidate (splitext filename).1 (splitext filename).2 1) = false →
      ensure_unique_filename fs filename =
        some (uniqueCandidate (splitext filename).1 (splitext filename).2 1)) ∧
    (FS.fileExists fs filename = true →
      FS.fileExists fs
        (uniqueCandidate (splitext filename).1 (splitext filename).2 1) = true →
      FS.fileExists fs
        (uniqueCandidate (splitext filename).1 (splitext filename).2 2) = false →
      ensure_unique_filename fs filename =
        some (uniqueCandidate (splitext filename).1 (splitext filename).2 2)) := by
  refine ⟨?_, ?_, ?_⟩
  · intro h
    unfold ensure_unique_filename
    rw [if_neg (by simp [h])]
  · intro h h1
    unfold ensure_unique_filename
    rw [if_pos h]
    simp [findUnique, h1]
  · intro h h1 h2
    unfold ensure_unique_filename
    rw [if_pos h]
    have hpos := fileExists_size_pos fs filename h
    obtain ⟨m, hm⟩ : ∃ m, FS.size fs = m + 1 := ⟨FS.size fs - 1, by omega⟩
    rw [hm]
    simp [findUnique, h1, h2]

/-- Witness for C9: in a directory holding `report.xlsx` (and, for the
third case, `report_1.xlsx`), resolving `data.xlsx` returns it unchanged,
resolving `report.xlsx` returns `report_1.xlsx`, and resolving it again
with both taken returns `report_2.xlsx`. -/
theorem ensure_unique_filename_spec_witness :
    ensure_unique_filename [("report.xlsx", 2000), ("report_1.xlsx", 1500)]
      "data.xlsx" = some "data.xlsx" ∧
    ensure_unique_filename [("report.xlsx", 2000)] "report.xlsx"
      = some "report_1.xlsx" ∧
    ensure_unique_filename [("report.xlsx", 2000), ("report_1.xlsx", 1500)]
      "report.xlsx" = some "report_2.xlsx" := by
  refine ⟨(ensure_unique_filename_spec _ _).1 (by decide), ?_, ?_⟩
  · have h := (ensure_unique_filename_spec [("report.xlsx", 2000)] "report.xlsx").2.1
      (by decide) (by decide)
    rw [h]
    decide
  · have h := (ensure_unique_filename_spec
      [("report.xlsx", 2000), ("report_1.xlsx", 1500)] "report.xlsx").2.2
      (by decide) (by decide) (by decide)
    rw [h]
    decide

end WebScraper
